import Mathlib

/-!
Shallow embedding of the EdgeCraft procedural GLB generators:
`src/scripts/generate-placeholder-glb.py` (namespace `P`) and
`src/scripts/generate-all-doodads.py` (namespace `D`).

Python floats are idealized as real numbers; byte strings are `List Nat`
(one entry per byte).  The IEEE-754 little-endian serialization of a
32-bit float (Python `struct.pack('<f', x)`) is kept abstract as a
bundled encoder `F32Enc` producing 4 bytes per float, since no claim
depends on float bit patterns.  `struct.pack('<H', v)` raises for
v outside 0..65535, so the 16-bit packer is the fallible `packU16s`.
JSON text serialization (`json.dumps`) is likewise abstract: the glTF
JSON dictionary is embedded structurally as `GltfDoc` and a serializer
`GltfDoc -> List Nat` is a parameter of the encoder functions.
-/

noncomputable section

/-- Flatten a list of 3-component vectors into the flat float list the
Python scripts build with `vertices.extend([x, y, z])`. -/
def flat3 (l : List (ℝ × ℝ × ℝ)) : List ℝ :=
  l.flatMap fun p => [p.1, p.2.1, p.2.2]

/-- x-coordinates of a vertex list. -/
def xsOf (l : List (ℝ × ℝ × ℝ)) : List ℝ := l.map fun p => p.1

/-- y-coordinates of a vertex list. -/
def ysOf (l : List (ℝ × ℝ × ℝ)) : List ℝ := l.map fun p => p.2.1

/-- z-coordinates of a vertex list. -/
def zsOf (l : List (ℝ × ℝ × ℝ)) : List ℝ := l.map fun p => p.2.2

/-- `m` is the true minimum of the list `l`: it occurs in `l` and bounds
every element from below. -/
def IsMinOf (l : List ℝ) (m : ℝ) : Prop := m ∈ l ∧ ∀ x ∈ l, m ≤ x

/-- `m` is the true maximum of the list `l`: it occurs in `l` and bounds
every element from above. -/
def IsMaxOf (l : List ℝ) (m : ℝ) : Prop := m ∈ l ∧ ∀ x ∈ l, x ≤ m

/-- `angle = 2 * math.pi * i / segments` from the cylinder generators. -/
def angle (i n : ℕ) : ℝ := 2 * Real.pi * i / n

/-- Little-endian bytes of one unsigned 16-bit integer
(`struct.pack('<H', v)` for an in-range `v`). -/
def u16le (v : ℕ) : List ℕ := [v % 256, v / 256]

/-- `struct.pack(f'{len(l)}H', *l)`: fails (raises `struct.error`) when
any value is outside the unsigned 16-bit range, otherwise concatenates
the 2-byte little-endian encodings. -/
def packU16s (l : List ℕ) : Option (List ℕ) :=
  if l.all fun v => v < 65536 then some (l.flatMap u16le) else none

/-- Little-endian bytes of one unsigned 32-bit integer
(`struct.pack('<I', v)` for an in-range `v`). -/
def u32le (v : ℕ) : List ℕ :=
  [v % 256, v / 256 % 256, v / 65536 % 256, v / 16777216 % 256]

/-- Read back a little-endian unsigned 32-bit integer from the first four
bytes of a byte list. -/
def readU32 (l : List ℕ) : ℕ :=
  l.getD 0 0 + 256 * l.getD 1 0 + 65536 * l.getD 2 0 + 16777216 * l.getD 3 0

/-- Zero-pad a byte string to a multiple of 4
(`binary_data += b'\x00' * ((4 - len(binary_data) % 4) % 4)`). -/
def pad4zero (b : List ℕ) : List ℕ :=
  b ++ List.replicate ((4 - b.length % 4) % 4) 0

/-- Space-pad a byte string to a multiple of 4
(`json_data += b' ' * ((4 - len(json_data) % 4) % 4)`; 32 is ASCII space). -/
def pad4space (b : List ℕ) : List ℕ :=
  b ++ List.replicate ((4 - b.length % 4) % 4) 32

/-- Abstract little-endian IEEE-754 float32 serializer: any function
producing exactly 4 bytes per float (the bit pattern itself is opaque). -/
structure F32Enc where
  f32 : ℝ → List ℕ
  len4 : ∀ x, (f32 x).length = 4

/-- `struct.pack(f'{len(xs)}f', *xs)`: concatenated 4-byte encodings. -/
def packF32s (e : F32Enc) (xs : List ℝ) : List ℕ := xs.flatMap e.f32

/-- A trivial float32 encoder used to instantiate closed statements. -/
def trivEnc : F32Enc := ⟨fun _ => [0, 0, 0, 0], fun _ => rfl⟩

/-- Final chunk assembly shared verbatim by all four generator functions:
12-byte header (magic "glTF" = 0x46546C67, version 2, total length),
8-byte JSON chunk header (length, tag 0x4E4F534A = "JSON"), padded JSON,
8-byte binary chunk header (length, tag 0x004E4942 = "BIN\0"), padded
binary. -/
def glbAssemble (jsonData binData : List ℕ) : List ℕ :=
  u32le 0x46546C67 ++ u32le 2 ++
    u32le (12 + 8 + jsonData.length + 8 + binData.length) ++
    u32le jsonData.length ++ u32le 0x4E4F534A ++ jsonData ++
    u32le binData.length ++ u32le 0x004E4942 ++ binData

/-- Structural embedding of the glTF JSON dictionary the scripts build:
exactly the data that varies between the fixed-shape fields (the
constant skeleton -- asset version "2.0", scene 0, one node/mesh/
primitive, componentTypes 5126/5123, types VEC3/SCALAR, targets
34962/34963, alpha 1.0 -- is common to every emitted document). -/
structure GltfDoc where
  generator : String
  copyright : String
  name : String
  posCount : ℕ
  posMax : ℝ × ℝ × ℝ
  posMin : ℝ × ℝ × ℝ
  normCount : ℕ
  idxCount : ℕ
  bv0Offset : ℕ
  bv0Length : ℕ
  bv1Offset : ℕ
  bv1Length : ℕ
  bv2Offset : ℕ
  bv2Length : ℕ
  bufferLength : ℕ
  matName : String
  baseColor : ℝ × ℝ × ℝ
  metallic : ℝ
  roughness : ℝ

/-- A trivial JSON serializer used to instantiate closed statements. -/
def trivJson : GltfDoc → List ℕ := fun _ => []

/-- The three buffer views of a document cover the position, normal and
index regions contiguously in that fixed order with no gaps, with each
byteLength the exact packed size of its region: 12 bytes per vertex
(3 little-endian float32s) for `nv` vertices and `nn` normals, 2 bytes
per index for `ni` indices. -/
def ContigViews (d : GltfDoc) (nv nn ni : ℕ) : Prop :=
  d.bv0Offset = 0 ∧ d.bv0Length = 12 * nv ∧
  d.bv1Offset = d.bv0Offset + d.bv0Length ∧ d.bv1Length = 12 * nn ∧
  d.bv2Offset = d.bv1Offset + d.bv1Length ∧ d.bv2Length = 2 * ni

namespace P

/-- Box corner positions from `generate-placeholder-glb.py` lines 28-37,
as 3-vectors; `s = size / 2` is passed in by the caller. -/
def box_positions (s : ℝ) : List (ℝ × ℝ × ℝ) :=
  [(-s, -s, -s), (s, -s, -s), (s, s, -s), (-s, s, -s),
   (-s, -s, s), (s, -s, s), (s, s, s), (-s, s, s)]

/-- Box triangle indices, lines 40-53. -/
def box_indices : List ℕ :=
  [0, 1, 2, 2, 3, 0,
   5, 4, 7, 7, 6, 5,
   3, 2, 6, 6, 7, 3,
   4, 5, 1, 1, 0, 4,
   1, 5, 6, 6, 2, 1,
   4, 0, 3, 3, 7, 4]

/-- Box per-vertex normals, lines 56-65: front/back face normals only. -/
def box_normals : List (ℝ × ℝ × ℝ) :=
  [(0, 0, -1), (0, 0, -1), (0, 0, -1), (0, 0, -1),
   (0, 0, 1), (0, 0, 1), (0, 0, 1), (0, 0, 1)]

/-- Cylinder vertex positions, lines 195-231: bottom center, top center,
bottom rim, top rim, then bottom/top side pairs per angular step. -/
def cyl_positions (height radius : ℝ) (segments : ℕ) : List (ℝ × ℝ × ℝ) :=
  [(0, 0, 0), (0, height, 0)] ++
    ((List.range segments).map fun i =>
      (radius * Real.cos (angle i segments), 0,
       radius * Real.sin (angle i segments))) ++
    ((List.range segments).map fun i =>
      (radius * Real.cos (angle i segments), height,
       radius * Real.sin (angle i segments))) ++
    ((List.range segments).flatMap fun i =>
      [(radius * Real.cos (angle i segments), 0,
        radius * Real.sin (angle i segments)),
       (radius * Real.cos (angle i segments), height,
        radius * Real.sin (angle i segments))])

/-- Cylinder per-vertex normals, lines 195-231. -/
def cyl_normals (segments : ℕ) : List (ℝ × ℝ × ℝ) :=
  [(0, -1, 0), (0, 1, 0)] ++
    List.replicate segments (0, -1, 0) ++
    List.replicate segments (0, 1, 0) ++
    ((List.range segments).flatMap fun i =>
      [(Real.cos (angle i segments), 0, Real.sin (angle i segments)),
       (Real.cos (angle i segments), 0, Real.sin (angle i segments))])

/-- Cylinder triangle indices, lines 233-253: all bottom-cap triangles,
then all top-cap triangles, then the side quads. -/
def cyl_indices (segments : ℕ) : List ℕ :=
  ((List.range segments).flatMap fun i =>
    [0, 2 + (i + 1) % segments, 2 + i]) ++
    ((List.range segments).flatMap fun i =>
      [1, 2 + segments + i, 2 + segments + (i + 1) % segments]) ++
    ((List.range segments).flatMap fun i =>
      [2 + 2 * segments + i * 2,
       2 + 2 * segments + ((i + 1) % segments) * 2,
       2 + 2 * segments + i * 2 + 1,
       2 + 2 * segments + i * 2 + 1,
       2 + 2 * segments + ((i + 1) % segments) * 2,
       2 + 2 * segments + ((i + 1) % segments) * 2 + 1])

/-- The glTF JSON document built for a box, lines 80-153; `iData` is the
packed index byte string (`indices_data`). -/
def box_doc (e : F32Enc) (name : String) (color : ℝ × ℝ × ℝ) (size : ℝ)
    (iData : List ℕ) : GltfDoc :=
  let s := size / 2
  let vData := packF32s e (flat3 (box_positions s))
  let nData := packF32s e (flat3 box_normals)
  { generator := "EdgeCraft Procedural Generator"
    copyright := "CC0 1.0 - Public Domain"
    name := name
    posCount := (flat3 (box_positions s)).length / 3
    posMax := (s, s, s)
    posMin := (-s, -s, -s)
    normCount := (flat3 box_normals).length / 3
    idxCount := box_indices.length
    bv0Offset := 0
    bv0Length := vData.length
    bv1Offset := vData.length
    bv1Length := nData.length
    bv2Offset := vData.length + nData.length
    bv2Length := iData.length
    bufferLength := (pad4zero (vData ++ nData ++ iData)).length
    matName := name ++ "_material"
    baseColor := color
    metallic := 0
    roughness := 0.8 }

/-- The glTF JSON document built for a cylinder, lines 264-338. -/
def cyl_doc (e : F32Enc) (name : String) (color : ℝ × ℝ × ℝ)
    (height radius : ℝ) (segments : ℕ) (iData : List ℕ) : GltfDoc :=
  let vData := packF32s e (flat3 (cyl_positions height radius segments))
  let nData := packF32s e (flat3 (cyl_normals segments))
  { generator := "EdgeCraft Procedural Generator"
    copyright := "CC0 1.0 - Public Domain"
    name := name
    posCount := (flat3 (cyl_positions height radius segments)).length / 3
    posMax := (radius, height, radius)
    posMin := (-radius, 0, -radius)
    normCount := (flat3 (cyl_normals segments)).length / 3
    idxCount := (cyl_indices segments).length
    bv0Offset := 0
    bv0Length := vData.length
    bv1Offset := vData.length
    bv1Length := nData.length
    bv2Offset := vData.length + nData.length
    bv2Length := iData.length
    bufferLength := (pad4zero (vData ++ nData ++ iData)).length
    matName := name ++ "_material"
    baseColor := color
    metallic := 0
    roughness := 0.8 }

/-- `create_box_glb` from `generate-placeholder-glb.py`: packs the mesh,
builds the JSON document, pads both chunks and assembles the GLB stream;
`none` models the `struct.error` raised by out-of-range index packing. -/
def create_box_glb (e : F32Enc) (jse : GltfDoc → List ℕ) (name : String)
    (color : ℝ × ℝ × ℝ) (size : ℝ) : Option (List ℕ) :=
  let s := size / 2
  let vData := packF32s e (flat3 (box_positions s))
  let nData := packF32s e (flat3 box_normals)
  match packU16s box_indices with
  | none => none
  | some iData =>
    some (glbAssemble (pad4space (jse (box_doc e name color size iData)))
      (pad4zero (vData ++ nData ++ iData)))

/-- `create_cylinder_glb` from `generate-placeholder-glb.py`. -/
def create_cylinder_glb (e : F32Enc) (jse : GltfDoc → List ℕ)
    (name : String) (color : ℝ × ℝ × ℝ) (height radius : ℝ)
    (segments : ℕ) : Option (List ℕ) :=
  let vData := packF32s e (flat3 (cyl_positions height radius segments))
  let nData := packF32s e (flat3 (cyl_normals segments))
  match packU16s (cyl_indices segments) with
  | none => none
  | some iData =>
    some (glbAssemble
      (pad4space (jse (cyl_doc e name color height radius segments iData)))
      (pad4zero (vData ++ nData ++ iData)))

end P

namespace D

/-- `generate-all-doodads.py` accepts either a scalar size or a
3-component size tuple (lines 17-21). -/
inductive Size where
  | scalar (x : ℝ)
  | triple (x y z : ℝ)

/-- Half extents `sx, sy, sz` derived from a `Size`, lines 18-21. -/
def halfExt : Size → ℝ × ℝ × ℝ
  | Size.scalar x => (x / 2, x / 2, x / 2)
  | Size.triple x y z => (x / 2, y / 2, z / 2)

/-- Box corner positions, `generate-all-doodads.py` lines 23-26. -/
def box_positions (sx sy sz : ℝ) : List (ℝ × ℝ × ℝ) :=
  [(-sx, -sy, -sz), (sx, -sy, -sz), (sx, sy, -sz), (-sx, sy, -sz),
   (-sx, -sy, sz), (sx, -sy, sz), (sx, sy, sz), (-sx, sy, sz)]

/-- Box triangle indices, lines 27-34. -/
def box_indices : List ℕ :=
  [0, 1, 2, 2, 3, 0,
   5, 4, 7, 7, 6, 5,
   3, 2, 6, 6, 7, 3,
   4, 5, 1, 1, 0, 4,
   1, 5, 6, 6, 2, 1,
   4, 0, 3, 3, 7, 4]

/-- Box normals, line 35: `[0, 0, -1] * 4 + [0, 0, 1] * 4`. -/
def box_normals : List (ℝ × ℝ × ℝ) :=
  List.replicate 4 (0, 0, -1) ++ List.replicate 4 (0, 0, 1)

/-- Cylinder vertex positions, lines 85-111 (identical construction to
the placeholder script). -/
def cyl_positions (height radius : ℝ) (segments : ℕ) : List (ℝ × ℝ × ℝ) :=
  [(0, 0, 0), (0, height, 0)] ++
    ((List.range segments).map fun i =>
      (radius * Real.cos (angle i segments), 0,
       radius * Real.sin (angle i segments))) ++
    ((List.range segments).map fun i =>
      (radius * Real.cos (angle i segments), height,
       radius * Real.sin (angle i segments))) ++
    ((List.range segments).flatMap fun i =>
      [(radius * Real.cos (angle i segments), 0,
        radius * Real.sin (angle i segments)),
       (radius * Real.cos (angle i segments), height,
        radius * Real.sin (angle i segments))])

/-- Cylinder per-vertex normals, lines 85-111. -/
def cyl_normals (segments : ℕ) : List (ℝ × ℝ × ℝ) :=
  [(0, -1, 0), (0, 1, 0)] ++
    List.replicate segments (0, -1, 0) ++
    List.replicate segments (0, 1, 0) ++
    ((List.range segments).flatMap fun i =>
      [(Real.cos (angle i segments), 0, Real.sin (angle i segments)),
       (Real.cos (angle i segments), 0, Real.sin (angle i segments))])

/-- Cylinder triangle indices, lines 113-124: ONE loop interleaves each
bottom-cap triangle with the matching top-cap triangle (unlike the
placeholder script, which emits all bottom-cap triangles first), then
the side quads. -/
def cyl_indices (segments : ℕ) : List ℕ :=
  ((List.range segments).flatMap fun i =>
    [0, 2 + (i + 1) % segments, 2 + i,
     1, 2 + segments + i, 2 + segments + (i + 1) % segments]) ++
    ((List.range segments).flatMap fun i =>
      [2 + 2 * segments + i * 2,
       2 + 2 * segments + ((i + 1) % segments) * 2,
       2 + 2 * segments + i * 2 + 1,
       2 + 2 * segments + i * 2 + 1,
       2 + 2 * segments + ((i + 1) % segments) * 2,
       2 + 2 * segments + ((i + 1) % segments) * 2 + 1])

/-- The glTF JSON document built for a box, lines 45-63 (note the
different metadata strings and the `_mat` material-name suffix). -/
def box_doc (e : F32Enc) (name : String) (color : ℝ × ℝ × ℝ) (size : Size)
    (iData : List ℕ) : GltfDoc :=
  let s := halfExt size
  let vData := packF32s e (flat3 (box_positions s.1 s.2.1 s.2.2))
  let nData := packF32s e (flat3 box_normals)
  { generator := "EdgeCraft"
    copyright := "CC0 1.0"
    name := name
    posCount := (flat3 (box_positions s.1 s.2.1 s.2.2)).length / 3
    posMax := (s.1, s.2.1, s.2.2)
    posMin := (-s.1, -s.2.1, -s.2.2)
    normCount := (flat3 box_normals).length / 3
    idxCount := box_indices.length
    bv0Offset := 0
    bv0Length := vData.length
    bv1Offset := vData.length
    bv1Length := nData.length
    bv2Offset := vData.length + nData.length
    bv2Length := iData.length
    bufferLength := (pad4zero (vData ++ nData ++ iData)).length
    matName := name ++ "_mat"
    baseColor := color
    metallic := 0
    roughness := 0.8 }

/-- The glTF JSON document built for a cylinder, lines 134-152. -/
def cyl_doc (e : F32Enc) (name : String) (color : ℝ × ℝ × ℝ)
    (height radius : ℝ) (segments : ℕ) (iData : List ℕ) : GltfDoc :=
  let vData := packF32s e (flat3 (cyl_positions height radius segments))
  let nData := packF32s e (flat3 (cyl_normals segments))
  { generator := "EdgeCraft"
    copyright := "CC0 1.0"
    name := name
    posCount := (flat3 (cyl_positions height radius segments)).length / 3
    posMax := (radius, height, radius)
    posMin := (-radius, 0, -radius)
    normCount := (flat3 (cyl_normals segments)).length / 3
    idxCount := (cyl_indices segments).length
    bv0Offset := 0
    bv0Length := vData.length
    bv1Offset := vData.length
    bv1Length := nData.length
    bv2Offset := vData.length + nData.length
    bv2Length := iData.length
    bufferLength := (pad4zero (vData ++ nData ++ iData)).length
    matName := name ++ "_mat"
    baseColor := color
    metallic := 0
    roughness := 0.8 }

/-- `create_box_glb` from `generate-all-doodads.py`. -/
def create_box_glb (e : F32Enc) (jse : GltfDoc → List ℕ) (name : String)
    (color : ℝ × ℝ × ℝ) (size : Size) : Option (List ℕ) :=
  let s := halfExt size
  let vData := packF32s e (flat3 (box_positions s.1 s.2.1 s.2.2))
  let nData := packF32s e (flat3 box_normals)
  match packU16s box_indices with
  | none => none
  | some iData =>
    some (glbAssemble (pad4space (jse (box_doc e name color size iData)))
      (pad4zero (vData ++ nData ++ iData)))

/-- `create_cylinder_glb` from `generate-all-doodads.py`. -/
def create_cylinder_glb (e : F32Enc) (jse : GltfDoc → List ℕ)
    (name : String) (color : ℝ × ℝ × ℝ) (height radius : ℝ)
    (segments : ℕ) : Option (List ℕ) :=
  let vData := packF32s e (flat3 (cyl_positions height radius segments))
  let nData := packF32s e (flat3 (cyl_normals segments))
  match packU16s (cyl_indices segments) with
  | none => none
  | some iData =>
    some (glbAssemble
      (pad4space (jse (cyl_doc e name color height radius segments iData)))
      (pad4zero (vData ++ nData ++ iData)))

end D

theorem flat3_length (l : List (ℝ × ℝ × ℝ)) :
    (flat3 l).length = 3 * l.length := by
  induction l with
  | nil => simp [flat3]
  | cons a t ih =>
    simp only [flat3, List.flatMap_cons] at ih ⊢
    simp only [List.length_append, List.length_cons, List.length_nil, ih]
    omega

theorem packF32s_length (e : F32Enc) (xs : List ℝ) :
    (packF32s e xs).length = 4 * xs.length := by
  induction xs with
  | nil => simp [packF32s]
  | cons a t ih =>
    simp only [packF32s, List.flatMap_cons] at ih ⊢
    simp only [List.length_append, List.length_cons, ih, e.len4]
    omega

theorem u16_flatMap_length (l : List ℕ) :
    (l.flatMap u16le).length = 2 * l.length := by
  induction l with
  | nil => simp
  | cons a t ih =>
    simp only [List.flatMap_cons, List.length_append, List.length_cons, ih, u16le]
    simp
    omega

theorem packU16s_eq_some {l d : List ℕ} (h : packU16s l = some d) :
    d = l.flatMap u16le ∧ ∀ v ∈ l, v < 65536 := by
  unfold packU16s at h
  by_cases hc : (l.all fun v => v < 65536) = true
  · rw [if_pos hc] at h
    refine ⟨(Option.some_injective _ h).symm, ?_⟩
    simpa [List.all_eq_true] using hc
  · rw [if_neg hc] at h
    exact absurd h (by simp)

theorem P_cyl_positions_length (h r : ℝ) (n : ℕ) :
    (P.cyl_positions h r n).length = 2 + 4 * n := by
  simp [P.cyl_positions, List.length_flatMap, List.map_const', Function.comp_def]
  omega

theorem PD_cyl_positions_eq (h r : ℝ) (n : ℕ) :
    P.cyl_positions h r n = D.cyl_positions h r n := rfl

theorem PD_cyl_normals_eq (n : ℕ) : P.cyl_normals n = D.cyl_normals n := rfl

theorem D_cyl_positions_length (h r : ℝ) (n : ℕ) :
    (D.cyl_positions h r n).length = 2 + 4 * n := by
  rw [← PD_cyl_positions_eq]; exact P_cyl_positions_length h r n

theorem P_cyl_indices_length (n : ℕ) : (P.cyl_indices n).length = 12 * n := by
  simp [P.cyl_indices, List.length_flatMap, List.map_const', Function.comp_def]
  omega

theorem D_cyl_indices_length (n : ℕ) : (D.cyl_indices n).length = 12 * n := by
  simp [D.cyl_indices, List.length_flatMap, List.map_const', Function.comp_def]
  omega

theorem P_cyl_indices_lt (n : ℕ) (hn : 0 < n) :
    ∀ v ∈ P.cyl_indices n, v < 2 + 4 * n := by
  intro v hv
  simp only [P.cyl_indices, List.mem_append, List.mem_flatMap,
    List.mem_range, List.mem_cons, List.not_mem_nil, or_false] at hv
  rcases hv with (⟨i, hi, hv⟩ | ⟨i, hi, hv⟩) | ⟨i, hi, hv⟩
  · have hmod := Nat.mod_lt (i + 1) hn
    rcases hv with rfl | rfl | rfl <;> omega
  · have hmod := Nat.mod_lt (i + 1) hn
    rcases hv with rfl | rfl | rfl <;> omega
  · have hmod := Nat.mod_lt (i + 1) hn
    rcases hv with rfl | rfl | rfl | rfl | rfl | rfl <;> omega

theorem D_cyl_indices_lt (n : ℕ) (hn : 0 < n) :
    ∀ v ∈ D.cyl_indices n, v < 2 + 4 * n := by
  intro v hv
  simp only [D.cyl_indices, List.mem_append, List.mem_flatMap,
    List.mem_range, List.mem_cons, List.not_mem_nil, or_false] at hv
  rcases hv with ⟨i, hi, hv⟩ | ⟨i, hi, hv⟩ <;>
    have hmod := Nat.mod_lt (i + 1) hn <;>
    rcases hv with rfl | rfl | rfl | rfl | rfl | rfl <;> omega

theorem drop_len_of_eq (l₁ l₂ : List ℕ) (n : ℕ) (h : l₁.length = n) :
    (l₁ ++ l₂).drop n = l₂ := by
  subst h; exact List.drop_left l₁ l₂

theorem take_len_of_eq (l₁ l₂ : List ℕ) (n : ℕ) (h : l₁.length = n) :
    (l₁ ++ l₂).take n = l₁ := by
  subst h; exact List.take_left l₁ l₂

theorem readU32_cons (x0 x1 x2 x3 : ℕ) (rest : List ℕ) :
    readU32 (x0 :: x1 :: x2 :: x3 :: rest) =
      x0 + 256 * x1 + 65536 * x2 + 16777216 * x3 := rfl

theorem readU32_u32le (v : ℕ) (rest : List ℕ) (hv : v < 4294967296) :
    readU32 (u32le v ++ rest) = v := by
  have hr : readU32 (u32le v ++ rest) =
      v % 256 + 256 * (v / 256 % 256) + 65536 * (v / 65536 % 256) +
        16777216 * (v / 16777216 % 256) := rfl
  omega

theorem u32le_length (v : ℕ) : (u32le v).length = 4 := rfl

/-- C2: the total_length field in the 12-byte header equals
12 + 8 + len(paddedJson) + 8 + len(paddedBin), this is the length of the
whole stream, and slicing the stream by the two declared chunk lengths
recovers the padded JSON and padded binary chunks byte-identically.
Every stream the scripts emit is `glbAssemble` applied to the two padded
chunks (see `P.create_box_glb` and friends), whose lengths in any real
invocation are far below 2^32, the range `struct.pack('<I', ...)`
accepts. -/
theorem c2_glb_roundtrip (j b : List ℕ)
    (ht : 12 + 8 + j.length + 8 + b.length < 4294967296) :
    (glbAssemble j b).length = 12 + 8 + j.length + 8 + b.length ∧
    readU32 ((glbAssemble j b).drop 8) = 12 + 8 + j.length + 8 + b.length ∧
    readU32 ((glbAssemble j b).drop 12) = j.length ∧
    ((glbAssemble j b).drop 20).take (readU32 ((glbAssemble j b).drop 12)) = j ∧
    readU32 ((glbAssemble j b).drop (20 + j.length)) = b.length ∧
    ((glbAssemble j b).drop (20 + j.length + 8)).take
      (readU32 ((glbAssemble j b).drop (20 + j.length))) = b := by
  have hj : j.length < 4294967296 := by omega
  have hb : b.length < 4294967296 := by omega
  have e8 : glbAssemble j b = (u32le 0x46546C67 ++ u32le 2) ++
      (u32le (12 + 8 + j.length + 8 + b.length) ++ (u32le j.length ++
        (u32le 0x4E4F534A ++ (j ++ (u32le b.length ++
          (u32le 0x004E4942 ++ b)))))) := by
    simp [glbAssemble, List.append_assoc]
  have e12 : glbAssemble j b = (u32le 0x46546C67 ++ u32le 2 ++
      u32le (12 + 8 + j.length + 8 + b.length)) ++ (u32le j.length ++
        (u32le 0x4E4F534A ++ (j ++ (u32le b.length ++
          (u32le 0x004E4942 ++ b))))) := by
    simp [glbAssemble, List.append_assoc]
  have e20 : glbAssemble j b = (u32le 0x46546C67 ++ u32le 2 ++
      u32le (12 + 8 + j.length + 8 + b.length) ++ u32le j.length ++
        u32le 0x4E4F534A) ++ (j ++ (u32le b.length ++
          (u32le 0x004E4942 ++ b))) := by
    simp [glbAssemble, List.append_assoc]
  have e20j : glbAssemble j b = ((u32le 0x46546C67 ++ u32le 2 ++
      u32le (12 + 8 + j.length + 8 + b.length) ++ u32le j.length ++
        u32le 0x4E4F534A) ++ j) ++ (u32le b.length ++
          (u32le 0x004E4942 ++ b)) := by
    simp [glbAssemble, List.append_assoc]
  have e28 : glbAssemble j b = (((u32le 0x46546C67 ++ u32le 2 ++
      u32le (12 + 8 + j.length + 8 + b.length) ++ u32le j.length ++
        u32le 0x4E4F534A) ++ j) ++ (u32le b.length ++ u32le 0x004E4942)) ++
          b := by
    simp [glbAssemble, List.append_assoc]
  have hd12 : readU32 ((glbAssemble j b).drop 12) = j.length := by
    rw [e12, drop_len_of_eq _ _ 12 (by simp [u32le_length])]
    exact readU32_u32le j.length _ hj
  have hd20j : readU32 ((glbAssemble j b).drop (20 + j.length)) = b.length := by
    rw [e20j, drop_len_of_eq _ _ (20 + j.length)
      (by simp [List.length_append, u32le_length]; omega)]
    exact readU32_u32le b.length _ hb
  refine ⟨?_, ?_, hd12, ?_, hd20j, ?_⟩
  · simp [glbAssemble, u32le, List.length_append]
    omega
  · rw [e8, drop_len_of_eq _ _ 8 (by simp [u32le_length])]
    exact readU32_u32le _ _ ht
  · rw [hd12, e20, drop_len_of_eq _ _ 20 (by simp [u32le_length])]
    exact take_len_of_eq j _ j.length rfl
  · rw [hd20j, e28, drop_len_of_eq _ _ (20 + j.length + 8)
      (by simp [List.length_append, u32le_length]; omega)]
    exact List.take_length b

theorem c2_glb_roundtrip_witness :
    (12 + 8 + ([1, 2, 3, 4] : List ℕ).length + 8 +
        ([5, 6, 7, 8] : List ℕ).length < 4294967296) ∧
    ((glbAssemble [1, 2, 3, 4] [5, 6, 7, 8]).length =
        12 + 8 + ([1, 2, 3, 4] : List ℕ).length + 8 +
          ([5, 6, 7, 8] : List ℕ).length ∧
      readU32 ((glbAssemble [1, 2, 3, 4] [5, 6, 7, 8]).drop 8) =
        12 + 8 + ([1, 2, 3, 4] : List ℕ).length + 8 +
          ([5, 6, 7, 8] : List ℕ).length ∧
      readU32 ((glbAssemble [1, 2, 3, 4] [5, 6, 7, 8]).drop 12) =
        ([1, 2, 3, 4] : List ℕ).length ∧
      ((glbAssemble [1, 2, 3, 4] [5, 6, 7, 8]).drop 20).take
        (readU32 ((glbAssemble [1, 2, 3, 4] [5, 6, 7, 8]).drop 12)) =
          [1, 2, 3, 4] ∧
      readU32 ((glbAssemble [1, 2, 3, 4] [5, 6, 7, 8]).drop
        (20 + ([1, 2, 3, 4] : List ℕ).length)) =
          ([5, 6, 7, 8] : List ℕ).length ∧
      ((glbAssemble [1, 2, 3, 4] [5, 6, 7, 8]).drop
        (20 + ([1, 2, 3, 4] : List ℕ).length + 8)).take
          (readU32 ((glbAssemble [1, 2, 3, 4] [5, 6, 7, 8]).drop
            (20 + ([1, 2, 3, 4] : List ℕ).length))) = [5, 6, 7, 8]) :=
  ⟨by decide, c2_glb_roundtrip [1, 2, 3, 4] [5, 6, 7, 8] (by decide)⟩

/-- C8: for every invocation of the encoder, the padded JSON chunk and
the padded binary chunk each have length a multiple of 4, the JSON chunk
is padded only with ASCII space bytes (0x20 = 32) after its original
content, and the binary chunk is padded only with zero bytes. -/
theorem c8_chunk_padding (b c : List ℕ) :
    (pad4space b).length % 4 = 0 ∧ (pad4zero c).length % 4 = 0 ∧
    (pad4space b).take b.length = b ∧
    (pad4space b).drop b.length = List.replicate ((4 - b.length % 4) % 4) 32 ∧
    (pad4zero c).take c.length = c ∧
    (pad4zero c).drop c.length = List.replicate ((4 - c.length % 4) % 4) 0 := by
  refine ⟨?_, ?_, List.take_left b _, List.drop_left b _,
    List.take_left c _, List.drop_left c _⟩
  · simp only [pad4space, List.length_append, List.length_replicate]
    omega
  · simp only [pad4zero, List.length_append, List.length_replicate]
    omega

/-- C9: in both scripts the box generator produces exactly 8 vertices,
the first 4 on the front (z = -sz) face and the last 4 on the back
(z = +sz) face, and assigns normal (0,0,-1) to the first 4 vertices and
(0,0,1) to the last 4 -- the flat-shading approximation. -/
theorem c9_box_normals (s sx sy sz : ℝ) :
    (P.box_positions s).length = 8 ∧
    P.box_normals.take 4 = List.replicate 4 (0, 0, -1) ∧
    P.box_normals.drop 4 = List.replicate 4 (0, 0, 1) ∧
    zsOf (P.box_positions s) = [-s, -s, -s, -s, s, s, s, s] ∧
    (D.box_positions sx sy sz).length = 8 ∧
    D.box_normals.take 4 = List.replicate 4 (0, 0, -1) ∧
    D.box_normals.drop 4 = List.replicate 4 (0, 0, 1) ∧
    zsOf (D.box_positions sx sy sz) = [-sz, -sz, -sz, -sz, sz, sz, sz, sz] :=
  ⟨rfl, rfl, rfl, rfl, rfl, rfl, rfl, rfl⟩

/-- C6: the generated index sequences have length divisible by 3 and
every index value is strictly below the vertex count, in both scripts:
36 indices below 8 vertices for the box, and 12*s indices below the
2 + 4*s vertices for a cylinder with s >= 3 segments. -/
theorem c6_indices_valid (s sx sy sz h r : ℝ) (n : ℕ) (hn : 3 ≤ n) :
    P.box_indices.length % 3 = 0 ∧
    (∀ v ∈ P.box_indices, v < (P.box_positions s).length) ∧
    D.box_indices.length % 3 = 0 ∧
    (∀ v ∈ D.box_indices, v < (D.box_positions sx sy sz).length) ∧
    (P.cyl_indices n).length = 12 * n ∧
    (P.cyl_indices n).length % 3 = 0 ∧
    (P.cyl_positions h r n).length = 2 + 4 * n ∧
    (∀ v ∈ P.cyl_indices n, v < (P.cyl_positions h r n).length) ∧
    (D.cyl_indices n).length = 12 * n ∧
    (D.cyl_indices n).length % 3 = 0 ∧
    (D.cyl_positions h r n).length = 2 + 4 * n ∧
    (∀ v ∈ D.cyl_indices n, v < (D.cyl_positions h r n).length) := by
  have hn0 : 0 < n := by omega
  refine ⟨by decide,
    by rw [show (P.box_positions s).length = 8 from rfl]; decide,
    by decide,
    by rw [show (D.box_positions sx sy sz).length = 8 from rfl]; decide,
    P_cyl_indices_length n, ?_, P_cyl_positions_length h r n, ?_,
    D_cyl_indices_length n, ?_, D_cyl_positions_length h r n, ?_⟩
  · rw [P_cyl_indices_length n]; omega
  · rw [P_cyl_positions_length h r n]; exact P_cyl_indices_lt n hn0
  · rw [D_cyl_indices_length n]; omega
  · rw [D_cyl_positions_length h r n]; exact D_cyl_indices_lt n hn0

theorem c6_indices_valid_witness :
    3 ≤ 8 ∧
    (P.box_indices.length % 3 = 0 ∧
      (∀ v ∈ P.box_indices, v < (P.box_positions 1).length) ∧
      D.box_indices.length % 3 = 0 ∧
      (∀ v ∈ D.box_indices, v < (D.box_positions 1 1 1).length) ∧
      (P.cyl_indices 8).length = 12 * 8 ∧
      (P.cyl_indices 8).length % 3 = 0 ∧
      (P.cyl_positions 4 1 8).length = 2 + 4 * 8 ∧
      (∀ v ∈ P.cyl_indices 8, v < (P.cyl_positions 4 1 8).length) ∧
      (D.cyl_indices 8).length = 12 * 8 ∧
      (D.cyl_indices 8).length % 3 = 0 ∧
      (D.cyl_positions 4 1 8).length = 2 + 4 * 8 ∧
      (∀ v ∈ D.cyl_indices 8, v < (D.cyl_positions 4 1 8).length)) :=
  ⟨by decide, c6_indices_valid 1 1 1 1 4 1 8 (by decide)⟩

theorem flatMap_append_perm {α β : Type} (l : List α) (f g : α → List β) :
    List.Perm (l.flatMap f ++ l.flatMap g) (l.flatMap fun x => f x ++ g x) := by
  induction l with
  | nil => simp
  | cons a t ih =>
    simp only [List.flatMap_cons, List.append_assoc]
    refine List.Perm.append_left (f a) ?_
    have h1 : List.Perm (t.flatMap f ++ (g a ++ t.flatMap g))
        (g a ++ (t.flatMap f ++ t.flatMap g)) := by
      rw [← List.append_assoc, ← List.append_assoc]
      exact List.Perm.append_right _ List.perm_append_comm
    exact h1.trans (List.Perm.append_left (g a) ih)

theorem PD_cyl_indices_perm (n : ℕ) :
    List.Perm (P.cyl_indices n) (D.cyl_indices n) := by
  unfold P.cyl_indices D.cyl_indices
  refine List.Perm.append_right _ ?_
  exact flatMap_append_perm (List.range n)
    (fun i => [0, 2 + (i + 1) % n, 2 + i])
    (fun i => [1, 2 + n + i, 2 + n + (i + 1) % n])

theorem P_cyl_indices_overflow_mem (n : ℕ) (hn : 0 < n) :
    2 + 2 * n + (n - 1) * 2 + 1 ∈ P.cyl_indices n := by
  simp only [P.cyl_indices, List.mem_append, List.mem_flatMap,
    List.mem_range, List.mem_cons, List.not_mem_nil, or_false]
  exact Or.inr ⟨n - 1, by omega, Or.inr (Or.inr (Or.inl rfl))⟩

theorem packU16s_none {l : List ℕ} (v : ℕ) (hv : v ∈ l)
    (hge : 65536 ≤ v) : packU16s l = none := by
  unfold packU16s
  rw [if_neg]
  intro hall
  rw [List.all_eq_true] at hall
  have := hall v hv
  simp at this
  omega

/-- C3 counterexample: invoking the cylinder generator with segments = 2
does NOT fail -- `create_cylinder_glb` returns a GLB byte stream (the
scripts contain no InvalidShapeParams validation at all). -/
theorem c3_counterexample :
    (P.create_cylinder_glb trivEnc trivJson "tree_oak" (0.3, 0.6, 0.3)
      4  0.5 2).isSome = true ∧
    (D.create_cylinder_glb trivEnc trivJson "tree_oak" (0.3, 0.6, 0.3)
      4 0.5 2).isSome = true := by
  have hp : packU16s (P.cyl_indices 2) =
      some ((P.cyl_indices 2).flatMap u16le) := by decide
  have hd : packU16s (D.cyl_indices 2) =
      some ((D.cyl_indices 2).flatMap u16le) := by decide
  exact ⟨by simp [P.create_cylinder_glb, hp], by simp [D.create_cylinder_glb, hd]⟩

/-- C3 amended: the generators perform no parameter validation: invoked
with segments = 2 (and any height or radius, including non-positive
values) both `create_cylinder_glb` functions return a GLB byte stream
rather than failing with InvalidShapeParams. -/
theorem c3_no_validation (e : F32Enc) (jse : GltfDoc → List ℕ)
    (nm : String) (c : ℝ × ℝ × ℝ) (h r : ℝ) :
    (P.create_cylinder_glb e jse nm c h r 2).isSome = true ∧
    (D.create_cylinder_glb e jse nm c h r 2).isSome = true := by
  have hp : packU16s (P.cyl_indices 2) =
      some ((P.cyl_indices 2).flatMap u16le) := by decide
  have hd : packU16s (D.cyl_indices 2) =
      some ((D.cyl_indices 2).flatMap u16le) := by decide
  exact ⟨by simp [P.create_cylinder_glb, hp], by simp [D.create_cylinder_glb, hd]⟩

/-- C4: whenever the requested cylinder's vertex count 2 + 4*segments
exceeds 65535, both generators reject the request -- the 16-bit index
packer refuses the out-of-range index values (Python `struct.pack('H')`
raises `struct.error`), so no GLB byte stream is produced, indices are
never silently wrapped, and the driver writes no file. -/
theorem c4_index_overflow (e : F32Enc) (jse : GltfDoc → List ℕ)
    (nm : String) (c : ℝ × ℝ × ℝ) (h r : ℝ) (n : ℕ)
    (hn : 65535 < 2 + 4 * n) :
    P.create_cylinder_glb e jse nm c h r n = none ∧
    D.create_cylinder_glb e jse nm c h r n = none := by
  have hn0 : 0 < n := by omega
  have hmem := P_cyl_indices_overflow_mem n hn0
  have hge : 65536 ≤ 2 + 2 * n + (n - 1) * 2 + 1 := by omega
  have hnone : packU16s (P.cyl_indices n) = none := packU16s_none _ hmem hge
  have hmemD : 2 + 2 * n + (n - 1) * 2 + 1 ∈ D.cyl_indices n :=
    (PD_cyl_indices_perm n).mem_iff.mp hmem
  have hnoneD : packU16s (D.cyl_indices n) = none := packU16s_none _ hmemD hge
  exact ⟨by simp [P.create_cylinder_glb, hnone],
    by simp [D.create_cylinder_glb, hnoneD]⟩

theorem c4_index_overflow_witness :
    65535 < 2 + 4 * 16384 ∧
    (P.create_cylinder_glb trivEnc trivJson "big" (0, 0, 0) 1 1 16384 = none ∧
      D.create_cylinder_glb trivEnc trivJson "big" (0, 0, 0) 1 1 16384 = none) :=
  ⟨by decide,
    c4_index_overflow trivEnc trivJson "big" (0, 0, 0) 1 1 16384 (by decide)⟩

theorem P_cyl_normals_length (n : ℕ) : (P.cyl_normals n).length = 2 + 4 * n := by
  simp [P.cyl_normals, List.length_flatMap, List.map_const', Function.comp_def]
  omega

theorem D_cyl_normals_length (n : ℕ) : (D.cyl_normals n).length = 2 + 4 * n := by
  rw [← PD_cyl_normals_eq]; exact P_cyl_normals_length n

theorem u16_map_sum (l : List ℕ) :
    (List.map (List.length ∘ u16le) l).sum = 2 * l.length := by
  induction l with
  | nil => simp
  | cons a t ih =>
    simp only [List.map_cons, List.sum_cons, ih, u16le, Function.comp_apply,
      List.length_cons, List.length_nil]
    omega

/-- C7: in every emitted JSON document, the three buffer views cover the
position, normal and index regions contiguously in that fixed order with
no gaps: the position view starts at byte 0, the normal view starts
exactly where the position view ends, the index view starts exactly
where the normal view ends, and each byteLength is the exact packed size
of its region (12 bytes per vertex/normal, 2 bytes per index). -/
theorem c7_buffer_views (e : F32Enc) (nm : String) (c : ℝ × ℝ × ℝ)
    (size h r : ℝ) (sz : D.Size) (n : ℕ) (iB iB2 iC iC2 : List ℕ)
    (hB : packU16s P.box_indices = some iB)
    (hB2 : packU16s D.box_indices = some iB2)
    (hC : packU16s (P.cyl_indices n) = some iC)
    (hC2 : packU16s (D.cyl_indices n) = some iC2) :
    ContigViews (P.box_doc e nm c size iB) 8 8 36 ∧
    ContigViews (D.box_doc e nm c sz iB2) 8 8 36 ∧
    ContigViews (P.cyl_doc e nm c h r n iC) (2 + 4 * n) (2 + 4 * n) (12 * n) ∧
    ContigViews (D.cyl_doc e nm c h r n iC2) (2 + 4 * n) (2 + 4 * n) (12 * n) := by
  obtain ⟨hiB, -⟩ := packU16s_eq_some hB
  obtain ⟨hiB2, -⟩ := packU16s_eq_some hB2
  obtain ⟨hiC, -⟩ := packU16s_eq_some hC
  obtain ⟨hiC2, -⟩ := packU16s_eq_some hC2
  subst hiB hiB2 hiC hiC2
  refine ⟨⟨rfl, ?_, ?_, ?_, ?_, ?_⟩, ⟨rfl, ?_, ?_, ?_, ?_, ?_⟩,
    ⟨rfl, ?_, ?_, ?_, ?_, ?_⟩, ⟨rfl, ?_, ?_, ?_, ?_, ?_⟩⟩ <;>
    simp [P.box_doc, D.box_doc, P.cyl_doc, D.cyl_doc, packF32s_length,
      flat3_length, u16_flatMap_length, P_cyl_positions_length,
      D_cyl_positions_length, P_cyl_indices_length, D_cyl_indices_length,
      P.box_indices, D.box_indices, P.box_normals, D.box_normals,
      P.box_positions, D.box_positions, u16le, P_cyl_normals_length,
      D_cyl_normals_length, u16_map_sum] <;>
    omega

theorem c7_buffer_views_witness :
    (packU16s P.box_indices = some (P.box_indices.flatMap u16le) ∧
      packU16s D.box_indices = some (D.box_indices.flatMap u16le) ∧
      packU16s (P.cyl_indices 3) = some ((P.cyl_indices 3).flatMap u16le) ∧
      packU16s (D.cyl_indices 3) = some ((D.cyl_indices 3).flatMap u16le)) ∧
    (ContigViews (P.box_doc trivEnc "w" (0, 0, 0) 2
        (P.box_indices.flatMap u16le)) 8 8 36 ∧
      ContigViews (D.box_doc trivEnc "w" (0, 0, 0) (D.Size.scalar 2)
        (D.box_indices.flatMap u16le)) 8 8 36 ∧
      ContigViews (P.cyl_doc trivEnc "w" (0, 0, 0) 4 1 3
        ((P.cyl_indices 3).flatMap u16le)) (2 + 4 * 3) (2 + 4 * 3) (12 * 3) ∧
      ContigViews (D.cyl_doc trivEnc "w" (0, 0, 0) 4 1 3
        ((D.cyl_indices 3).flatMap u16le)) (2 + 4 * 3) (2 + 4 * 3) (12 * 3)) :=
  ⟨⟨by decide, by decide, by decide, by decide⟩,
    c7_buffer_views trivEnc "w" (0, 0, 0) 2 4 1 (D.Size.scalar 2) 3
      (P.box_indices.flatMap u16le) (D.box_indices.flatMap u16le)
      ((P.cyl_indices 3).flatMap u16le) ((D.cyl_indices 3).flatMap u16le)
      (by decide) (by decide) (by decide) (by decide)⟩

theorem minmax_pm (a : ℝ) (ha : 0 ≤ a) (l : List ℝ)
    (hmem : ∀ x ∈ l, x = -a ∨ x = a) (hlo : -a ∈ l) (hhi : a ∈ l) :
    IsMinOf l (-a) ∧ IsMaxOf l a := by
  refine ⟨⟨hlo, ?_⟩, ⟨hhi, ?_⟩⟩ <;> intro x hx <;>
    rcases hmem x hx with rfl | rfl <;> linarith

theorem cyl_coord_cases (h r : ℝ) (n : ℕ) (p : ℝ × ℝ × ℝ)
    (hp : p ∈ P.cyl_positions h r n) :
    (p.1 = 0 ∨ ∃ i, i < n ∧ p.1 = r * Real.cos (angle i n)) ∧
    (p.2.1 = 0 ∨ p.2.1 = h) ∧
    (p.2.2 = 0 ∨ ∃ i, i < n ∧ p.2.2 = r * Real.sin (angle i n)) := by
  simp only [P.cyl_positions, List.mem_append, List.mem_cons,
    List.not_mem_nil, or_false, List.mem_map, List.mem_flatMap,
    List.mem_range] at hp
  rcases hp with (((rfl | rfl) | ⟨i, hi, rfl⟩) | ⟨i, hi, rfl⟩) |
    ⟨i, hi, rfl | rfl⟩
  · exact ⟨Or.inl rfl, Or.inl rfl, Or.inl rfl⟩
  · exact ⟨Or.inl rfl, Or.inr rfl, Or.inl rfl⟩
  · exact ⟨Or.inr ⟨i, hi, rfl⟩, Or.inl rfl, Or.inr ⟨i, hi, rfl⟩⟩
  · exact ⟨Or.inr ⟨i, hi, rfl⟩, Or.inr rfl, Or.inr ⟨i, hi, rfl⟩⟩
  · exact ⟨Or.inr ⟨i, hi, rfl⟩, Or.inl rfl, Or.inr ⟨i, hi, rfl⟩⟩
  · exact ⟨Or.inr ⟨i, hi, rfl⟩, Or.inr rfl, Or.inr ⟨i, hi, rfl⟩⟩

theorem cyl_rim_mem (h r : ℝ) (n : ℕ) (i : ℕ) (hi : i < n) :
    (r * Real.cos (angle i n), 0, r * Real.sin (angle i n)) ∈
      P.cyl_positions h r n := by
  unfold P.cyl_positions
  exact List.mem_append_left _ (List.mem_append_left _
    (List.mem_append_right _
      (List.mem_map.mpr ⟨i, List.mem_range.mpr hi, rfl⟩)))

theorem cyl_center_bot_mem (h r : ℝ) (n : ℕ) :
    ((0 : ℝ), (0 : ℝ), (0 : ℝ)) ∈ P.cyl_positions h r n := by
  unfold P.cyl_positions
  exact List.mem_append_left _ (List.mem_append_left _
    (List.mem_append_left _ (List.mem_cons_self _ _)))

theorem cyl_center_top_mem (h r : ℝ) (n : ℕ) :
    ((0 : ℝ), h, (0 : ℝ)) ∈ P.cyl_positions h r n := by
  unfold P.cyl_positions
  exact List.mem_append_left _ (List.mem_append_left _
    (List.mem_append_left _ (List.mem_cons_of_mem _ (List.mem_cons_self _ _))))

theorem angle_zero (n : ℕ) : angle 0 n = 0 := by
  simp [angle]

theorem angle_two_k (k : ℕ) (hk : 0 < k) :
    angle (2 * k) (4 * k) = Real.pi := by
  unfold angle
  have hkR : (k : ℝ) ≠ 0 := Nat.cast_ne_zero.mpr (by omega)
  push_cast
  field_simp
  ring

theorem angle_one_k (k : ℕ) (hk : 0 < k) :
    angle k (4 * k) = Real.pi / 2 := by
  unfold angle
  have hkR : (k : ℝ) ≠ 0 := Nat.cast_ne_zero.mpr (by omega)
  push_cast
  field_simp
  ring

theorem angle_three_k (k : ℕ) (hk : 0 < k) :
    angle (3 * k) (4 * k) = Real.pi / 2 + Real.pi := by
  unfold angle
  have hkR : (k : ℝ) ≠ 0 := Nat.cast_ne_zero.mpr (by omega)
  push_cast
  field_simp
  ring

/-- C1 amended: the recorded accessor bounds are the true per-axis
extremes for every box (min (-sx,-sy,-sz), max (sx,sy,sz) for half
extents (sx,sy,sz)), and for a cylinder they are the true extremes when
the segment count is a multiple of 4 (as in the default segments = 8);
for other segment counts the recorded x/z bounds of +-radius
overestimate the rim extent (see the counterexample), while the y bounds
0..height are always exact. -/
theorem c1_accessor_bounds (e : F32Enc) (nm : String) (c : ℝ × ℝ × ℝ)
    (iB iC iC2 : List ℕ) (sx sy sz h r : ℝ) (n : ℕ)
    (hsx : 0 ≤ sx) (hsy : 0 ≤ sy) (hsz : 0 ≤ sz)
    (hh : 0 < h) (hr : 0 < r) (hn : 3 ≤ n) (h4 : 4 ∣ n) :
    ((D.box_doc e nm c (D.Size.triple sx sy sz) iB).posMin =
        (-(sx / 2), -(sy / 2), -(sz / 2)) ∧
      (D.box_doc e nm c (D.Size.triple sx sy sz) iB).posMax =
        (sx / 2, sy / 2, sz / 2) ∧
      IsMinOf (xsOf (D.box_positions (sx / 2) (sy / 2) (sz / 2)))
        (-(sx / 2)) ∧
      IsMaxOf (xsOf (D.box_positions (sx / 2) (sy / 2) (sz / 2))) (sx / 2) ∧
      IsMinOf (ysOf (D.box_positions (sx / 2) (sy / 2) (sz / 2)))
        (-(sy / 2)) ∧
      IsMaxOf (ysOf (D.box_positions (sx / 2) (sy / 2) (sz / 2))) (sy / 2) ∧
      IsMinOf (zsOf (D.box_positions (sx / 2) (sy / 2) (sz / 2)))
        (-(sz / 2)) ∧
      IsMaxOf (zsOf (D.box_positions (sx / 2) (sy / 2) (sz / 2))) (sz / 2)) ∧
    ((P.cyl_doc e nm c h r n iC).posMin = (-r, 0, -r) ∧
      (P.cyl_doc e nm c h r n iC).posMax = (r, h, r) ∧
      (D.cyl_doc e nm c h r n iC2).posMin = (-r, 0, -r) ∧
      (D.cyl_doc e nm c h r n iC2).posMax = (r, h, r) ∧
      IsMinOf (xsOf (P.cyl_positions h r n)) (-r) ∧
      IsMaxOf (xsOf (P.cyl_positions h r n)) r ∧
      IsMinOf (ysOf (P.cyl_positions h r n)) 0 ∧
      IsMaxOf (ysOf (P.cyl_positions h r n)) h ∧
      IsMinOf (zsOf (P.cyl_positions h r n)) (-r) ∧
      IsMaxOf (zsOf (P.cyl_positions h r n)) r) := by
  obtain ⟨k, rfl⟩ := h4
  have hk : 0 < k := by omega
  have hbx := minmax_pm (sx / 2) (by linarith)
    (xsOf (D.box_positions (sx / 2) (sy / 2) (sz / 2)))
    (by intro x hx; simp [xsOf, D.box_positions] at hx; tauto)
    (by simp [xsOf, D.box_positions])
    (by simp [xsOf, D.box_positions])
  have hby := minmax_pm (sy / 2) (by linarith)
    (ysOf (D.box_positions (sx / 2) (sy / 2) (sz / 2)))
    (by intro x hx; simp [ysOf, D.box_positions] at hx; tauto)
    (by simp [ysOf, D.box_positions])
    (by simp [ysOf, D.box_positions])
  have hbz := minmax_pm (sz / 2) (by linarith)
    (zsOf (D.box_positions (sx / 2) (sy / 2) (sz / 2)))
    (by intro x hx; simp [zsOf, D.box_positions] at hx; tauto)
    (by simp [zsOf, D.box_positions])
    (by simp [zsOf, D.box_positions])
  have hxb : ∀ x ∈ xsOf (P.cyl_positions h r (4 * k)), -r ≤ x ∧ x ≤ r := by
    intro x hx
    simp only [xsOf, List.mem_map] at hx
    obtain ⟨p, hp, rfl⟩ := hx
    obtain ⟨hc, -, -⟩ := cyl_coord_cases h r (4 * k) p hp
    rcases hc with h0 | ⟨i, hi, hcos⟩
    · rw [h0]; constructor <;> linarith
    · rw [hcos]
      have h1 := Real.neg_one_le_cos (angle i (4 * k))
      have h2 := Real.cos_le_one (angle i (4 * k))
      constructor <;> nlinarith
  have hyb : ∀ y ∈ ysOf (P.cyl_positions h r (4 * k)), 0 ≤ y ∧ y ≤ h := by
    intro y hy
    simp only [ysOf, List.mem_map] at hy
    obtain ⟨p, hp, rfl⟩ := hy
    obtain ⟨-, hc, -⟩ := cyl_coord_cases h r (4 * k) p hp
    rcases hc with h0 | h0 <;> rw [h0] <;> constructor <;> linarith
  have hzb : ∀ z ∈ zsOf (P.cyl_positions h r (4 * k)), -r ≤ z ∧ z ≤ r := by
    intro z hz
    simp only [zsOf, List.mem_map] at hz
    obtain ⟨p, hp, rfl⟩ := hz
    obtain ⟨-, -, hc⟩ := cyl_coord_cases h r (4 * k) p hp
    rcases hc with h0 | ⟨i, hi, hsin⟩
    · rw [h0]; constructor <;> linarith
    · rw [hsin]
      have h1 := Real.neg_one_le_sin (angle i (4 * k))
      have h2 := Real.sin_le_one (angle i (4 * k))
      constructor <;> nlinarith
  have hxlo : -r ∈ xsOf (P.cyl_positions h r (4 * k)) := by
    simp only [xsOf, List.mem_map]
    refine ⟨_, cyl_rim_mem h r (4 * k) (2 * k) (by omega), ?_⟩
    show r * Real.cos (angle (2 * k) (4 * k)) = -r
    rw [angle_two_k k hk, Real.cos_pi]; ring
  have hxhi : r ∈ xsOf (P.cyl_positions h r (4 * k)) := by
    simp only [xsOf, List.mem_map]
    refine ⟨_, cyl_rim_mem h r (4 * k) 0 (by omega), ?_⟩
    show r * Real.cos (angle 0 (4 * k)) = r
    rw [angle_zero, Real.cos_zero]; ring
  have hzhi : r ∈ zsOf (P.cyl_positions h r (4 * k)) := by
    simp only [zsOf, List.mem_map]
    refine ⟨_, cyl_rim_mem h r (4 * k) k (by omega), ?_⟩
    show r * Real.sin (angle k (4 * k)) = r
    rw [angle_one_k k hk, Real.sin_pi_div_two]; ring
  have hzlo : -r ∈ zsOf (P.cyl_positions h r (4 * k)) := by
    simp only [zsOf, List.mem_map]
    refine ⟨_, cyl_rim_mem h r (4 * k) (3 * k) (by omega), ?_⟩
    show r * Real.sin (angle (3 * k) (4 * k)) = -r
    rw [angle_three_k k hk, Real.sin_add_pi, Real.sin_pi_div_two]; ring
  have hylo : (0 : ℝ) ∈ ysOf (P.cyl_positions h r (4 * k)) := by
    simp only [ysOf, List.mem_map]
    exact ⟨_, cyl_center_bot_mem h r (4 * k), rfl⟩
  have hyhi : h ∈ ysOf (P.cyl_positions h r (4 * k)) := by
    simp only [ysOf, List.mem_map]
    exact ⟨_, cyl_center_top_mem h r (4 * k), rfl⟩
  exact ⟨⟨rfl, rfl, hbx.1, hbx.2, hby.1, hby.2, hbz.1, hbz.2⟩,
    ⟨rfl, rfl, rfl, rfl,
      ⟨hxlo, fun x hx => (hxb x hx).1⟩, ⟨hxhi, fun x hx => (hxb x hx).2⟩,
      ⟨hylo, fun y hy => (hyb y hy).1⟩, ⟨hyhi, fun y hy => (hyb y hy).2⟩,
      ⟨hzlo, fun z hz => (hzb z hz).1⟩, ⟨hzhi, fun z hz => (hzb z hz).2⟩⟩⟩

/-- C1 counterexample: for a cylinder with segments = 3 (height 1,
radius 1) the recorded z-axis maximum in the position accessor is the
radius 1, but no generated vertex reaches z = 1 (the rim attains only
z = sqrt(3)/2), so the recorded bound is NOT the true maximum. -/
theorem c1_counterexample :
    (P.cyl_doc trivEnc "tree" (0, 0, 0) 1 1 3 []).posMax.2.2 = 1 ∧
    ¬ IsMaxOf (zsOf (P.cyl_positions 1 1 3))
      ((P.cyl_doc trivEnc "tree" (0, 0, 0) 1 1 3 []).posMax.2.2) := by
  refine ⟨rfl, ?_⟩
  rw [show (P.cyl_doc trivEnc "tree" (0, 0, 0) 1 1 3 []).posMax.2.2 = (1 : ℝ)
    from rfl]
  rintro ⟨hmem, -⟩
  simp only [zsOf, List.mem_map] at hmem
  obtain ⟨p, hp, hz⟩ := hmem
  obtain ⟨-, -, hc⟩ := cyl_coord_cases 1 1 3 p hp
  rcases hc with h0 | ⟨i, hi, hsin⟩
  · rw [h0] at hz
    norm_num at hz
  · rw [hsin] at hz
    interval_cases i
    · rw [angle_zero, Real.sin_zero] at hz
      norm_num at hz
    · have ha : angle 1 3 = Real.pi - Real.pi / 3 := by
        unfold angle; push_cast; ring
      rw [ha, Real.sin_pi_sub, Real.sin_pi_div_three] at hz
      have h3 : Real.sqrt 3 < 2 := by
        nlinarith [Real.sq_sqrt (show (0 : ℝ) ≤ 3 by norm_num),
          Real.sqrt_nonneg 3]
      linarith
    · have ha : angle 2 3 = Real.pi / 3 + Real.pi := by
        unfold angle; push_cast; ring
      rw [ha, Real.sin_add_pi, Real.sin_pi_div_three] at hz
      have h3 := Real.sqrt_nonneg 3
      linarith

theorem c1_accessor_bounds_witness :
    ((0 : ℝ) ≤ 2 ∧ (0 : ℝ) < 4 ∧ (0 : ℝ) < 1 ∧ 3 ≤ 8 ∧ 4 ∣ 8) ∧
    (((D.box_doc trivEnc "w" (0, 0, 0) (D.Size.triple 2 2 2) []).posMin =
        (-(2 / 2), -(2 / 2), -(2 / 2)) ∧
      (D.box_doc trivEnc "w" (0, 0, 0) (D.Size.triple 2 2 2) []).posMax =
        (2 / 2, 2 / 2, 2 / 2) ∧
      IsMinOf (xsOf (D.box_positions (2 / 2) (2 / 2) (2 / 2))) (-(2 / 2)) ∧
      IsMaxOf (xsOf (D.box_positions (2 / 2) (2 / 2) (2 / 2))) (2 / 2) ∧
      IsMinOf (ysOf (D.box_positions (2 / 2) (2 / 2) (2 / 2))) (-(2 / 2)) ∧
      IsMaxOf (ysOf (D.box_positions (2 / 2) (2 / 2) (2 / 2))) (2 / 2) ∧
      IsMinOf (zsOf (D.box_positions (2 / 2) (2 / 2) (2 / 2))) (-(2 / 2)) ∧
      IsMaxOf (zsOf (D.box_positions (2 / 2) (2 / 2) (2 / 2))) (2 / 2)) ∧
    ((P.cyl_doc trivEnc "w" (0, 0, 0) 4 1 8 []).posMin = (-1, 0, -1) ∧
      (P.cyl_doc trivEnc "w" (0, 0, 0) 4 1 8 []).posMax = (1, 4, 1) ∧
      (D.cyl_doc trivEnc "w" (0, 0, 0) 4 1 8 []).posMin = (-1, 0, -1) ∧
      (D.cyl_doc trivEnc "w" (0, 0, 0) 4 1 8 []).posMax = (1, 4, 1) ∧
      IsMinOf (xsOf (P.cyl_positions 4 1 8)) (-1) ∧
      IsMaxOf (xsOf (P.cyl_positions 4 1 8)) 1 ∧
      IsMinOf (ysOf (P.cyl_positions 4 1 8)) 0 ∧
      IsMaxOf (ysOf (P.cyl_positions 4 1 8)) 4 ∧
      IsMinOf (zsOf (P.cyl_positions 4 1 8)) (-1) ∧
      IsMaxOf (zsOf (P.cyl_positions 4 1 8)) 1)) :=
  ⟨⟨by norm_num, by norm_num, by norm_num, by decide, by decide⟩,
    c1_accessor_bounds trivEnc "w" (0, 0, 0) [] [] [] 2 2 2 4 1 8
      (by norm_num) (by norm_num) (by norm_num) (by norm_num) (by norm_num)
      (by decide) (by decide)⟩

/-- C5 counterexample: the two scripts are NOT byte-identical on
identical requests.  For an identical cylinder request the emitted GLB
streams differ (the placeholder script emits all bottom-cap triangles
before all top-cap triangles while the doodads script interleaves them,
so the packed index bytes differ), and for an identical box request the
JSON documents differ in the asset.generator, asset.copyright and
material-name fields. -/
theorem c5_counterexample :
    (P.create_cylinder_glb trivEnc trivJson "tree" (0.4, 0.3, 0.2) 8 0.3 3 ≠
        D.create_cylinder_glb trivEnc trivJson "tree" (0.4, 0.3, 0.2) 8 0.3 3) ∧
    P.cyl_indices 3 ≠ D.cyl_indices 3 ∧
    (P.box_doc trivEnc "bush_round" (0.2, 0.5, 0.2) 1.5 []).generator ≠
      (D.box_doc trivEnc "bush_round" (0.2, 0.5, 0.2) (D.Size.scalar 1.5)
        []).generator ∧
    (P.box_doc trivEnc "bush_round" (0.2, 0.5, 0.2) 1.5 []).copyright ≠
      (D.box_doc trivEnc "bush_round" (0.2, 0.5, 0.2) (D.Size.scalar 1.5)
        []).copyright ∧
    (P.box_doc trivEnc "bush_round" (0.2, 0.5, 0.2) 1.5 []).matName ≠
      (D.box_doc trivEnc "bush_round" (0.2, 0.5, 0.2) (D.Size.scalar 1.5)
        []).matName := by
  refine ⟨?_, by decide, ?_, ?_, ?_⟩
  · set_option maxRecDepth 4096 in decide
  · simp [P.box_doc, D.box_doc]
  · simp [P.box_doc, D.box_doc]
  · simp [P.box_doc, D.box_doc]

/-- C5 amended: the two scripts are geometrically equivalent but not
byte-identical.  On identical requests they generate identical box
geometry (positions, indices, normals), identical cylinder vertices and
normals, and cylinder index lists that are permutations of each other
(the same triangles, emitted in a different order); the remaining
differences are the JSON metadata strings (asset.generator,
asset.copyright, material-name suffix). -/
theorem c5_equivalence (s h r : ℝ) (n : ℕ) :
    P.box_positions s = D.box_positions s s s ∧
    P.box_indices = D.box_indices ∧
    P.box_normals = D.box_normals ∧
    P.cyl_positions h r n = D.cyl_positions h r n ∧
    P.cyl_normals n = D.cyl_normals n ∧
    List.Perm (P.cyl_indices n) (D.cyl_indices n) :=
  ⟨rfl, rfl, rfl, PD_cyl_positions_eq h r n, PD_cyl_normals_eq n,
    PD_cyl_indices_perm n⟩

/-- C10: for every cylinder request with valid parameters, every
generated vertex has y-coordinate 0 or height (the base sits on the
y = 0 plane; the cylinder is not centered at the origin), with the
bottom-center vertex (0,0,0) at index 0 and the top-center vertex
(0,height,0) at index 1, in both scripts. -/
theorem c10_cylinder_y (h r : ℝ) (n : ℕ) (hn : 3 ≤ n) (hh : 0 < h)
    (hr : 0 < r) :
    (∀ p ∈ P.cyl_positions h r n, p.2.1 = 0 ∨ p.2.1 = h) ∧
    (P.cyl_positions h r n).take 2 = [(0, 0, 0), (0, h, 0)] ∧
    (∀ p ∈ D.cyl_positions h r n, p.2.1 = 0 ∨ p.2.1 = h) ∧
    (D.cyl_positions h r n).take 2 = [(0, 0, 0), (0, h, 0)] := by
  have key : ∀ p ∈ P.cyl_positions h r n, p.2.1 = 0 ∨ p.2.1 = h := by
    intro p hp
    simp only [P.cyl_positions, List.mem_append, List.mem_cons,
      List.not_mem_nil, or_false, List.mem_map, List.mem_flatMap,
      List.mem_range] at hp
    rcases hp with (((rfl | rfl) | ⟨i, hi, rfl⟩) | ⟨i, hi, rfl⟩) |
      ⟨i, hi, rfl | rfl⟩ <;> simp
  refine ⟨key, rfl, ?_, rfl⟩
  rw [← PD_cyl_positions_eq]
  exact key

theorem c10_cylinder_y_witness :
    (3 ≤ 8 ∧ (0 : ℝ) < 4 ∧ (0 : ℝ) < 1 / 2) ∧
    ((∀ p ∈ P.cyl_positions 4 (1 / 2) 8, p.2.1 = 0 ∨ p.2.1 = 4) ∧
      (P.cyl_positions 4 (1 / 2) 8).take 2 = [(0, 0, 0), (0, 4, 0)] ∧
      (∀ p ∈ D.cyl_positions 4 (1 / 2) 8, p.2.1 = 0 ∨ p.2.1 = 4) ∧
      (D.cyl_positions 4 (1 / 2) 8).take 2 = [(0, 0, 0), (0, 4, 0)]) :=
  ⟨⟨by decide, by norm_num, by norm_num⟩,
    c10_cylinder_y 4 (1 / 2) 8 (by decide) (by norm_num) (by norm_num)⟩

end
